import Mathlib

/-!
Shallow embedding of `src/xaml-parser-native/src/parser.rs`.

The source is a Rust FFI layer over the external `roxmltree` parsing
collaborator.  It exposes two entry points:

* `parse_xaml(xml: *const c_char, result: *mut *mut XamlElement) -> i32`
* `free_xaml_element(element: *mut XamlElement) -> i32`

and two internal functions, `convert_node_to_xaml_element` and
`free_xaml_element_internal`.

Modelling conventions:

* A nullable C pointer is `Option α` (`none` = null).
* A `*mut c_char` produced by `CString::into_raw` is `Option String`
  (`none` = null).  `CString::new` rejects strings with an embedded NUL; the
  source calls `.unwrap()` on its result, which terminates the process.  We
  model `CString::new(..).unwrap()` as `cstring_new : String → Option String`
  where `none` means the process aborts; the abort propagates, so every
  function that can reach an unwrap is `Option`-valued, with `none` meaning
  "the call never returns".
* The external collaborators — UTF-8 validation (`CStr::to_str`) and XML
  parsing (`roxmltree::Document::parse` composed with `root_element`) — are
  not part of this repository and are taken as abstract function parameters.
* Heap effects of the deallocator are modelled as a trace of free events.
-/

/-- A node of the parsed document returned by the parsing collaborator
(`roxmltree::Node`).  An element carries its tag name, optional namespace,
attribute list (document order), the text reported by `Node::text`, and its
raw child list, which may contain non-element nodes. -/
inductive PNode where
  | element (name : String) (ns : Option String)
      (attrs : List (String × String)) (txt : Option String)
      (children : List PNode) : PNode
  | textNode (content : String) : PNode
  | comment (content : String) : PNode
  | procInst (content : String) : PNode

/-- `roxmltree::Node::is_element`. -/
def PNode.is_element : PNode → Bool
  | .element _ _ _ _ _ => true
  | _ => false

/-- `CString::new(s).unwrap().into_raw()`: `CString::new` fails exactly when
`s` contains an embedded NUL byte; the source's `.unwrap()` turns that
failure into a process abort, modelled as `none`. -/
def cstring_new (s : String) : Option String :=
  if s.data.any (fun c => c == Char.ofNat 0) then none else some s

/-- Conversion of an optional collaborator string to an optional owned C
string: `None` becomes a null pointer, `Some` goes through
`CString::new(..).unwrap()`. -/
def opt_cstring : Option String → Option (Option String)
  | none => some none
  | some s =>
    match cstring_new s with
    | none => none
    | some c => some (some c)

/-- `#[repr(C)] struct XamlAttribute { key: *mut c_char, value: *mut c_char }`. -/
structure XamlAttribute where
  key : Option String
  value : Option String
deriving DecidableEq

/-- `#[repr(C)] struct XamlElement`.  `xnamespace` is the source's
`namespace` field (`namespace` is reserved in Lean).  The `attributes` and
`children` fields are the nullable array pointers; `attributes_len` and
`children_len` are the separately stored length fields. -/
inductive XamlElement where
  | mk (name : Option String) (xnamespace : Option String)
      (attributes : Option (List XamlAttribute)) (attributes_len : Nat)
      (children : Option (List XamlElement)) (children_len : Nat)
      (text_content : Option String) : XamlElement

def XamlElement.name : XamlElement → Option String
  | .mk n _ _ _ _ _ _ => n

def XamlElement.xnamespace : XamlElement → Option String
  | .mk _ ns _ _ _ _ _ => ns

def XamlElement.attributes : XamlElement → Option (List XamlAttribute)
  | .mk _ _ a _ _ _ _ => a

def XamlElement.attributes_len : XamlElement → Nat
  | .mk _ _ _ al _ _ _ => al

def XamlElement.children : XamlElement → Option (List XamlElement)
  | .mk _ _ _ _ c _ _ => c

def XamlElement.children_len : XamlElement → Nat
  | .mk _ _ _ _ _ cl _ => cl

def XamlElement.text_content : XamlElement → Option String
  | .mk _ _ _ _ _ _ t => t

/-- The child sequence an element represents: a null `children` pointer
stands for the empty sequence. -/
def XamlElement.children_seq (e : XamlElement) : List XamlElement :=
  match e.children with
  | none => []
  | some l => l

/-- The attribute-building loop of `convert_node_to_xaml_element`
(lines 66-71): each attribute's name and value go through
`CString::new(..).unwrap()`, in document order, key before value. -/
def convert_attrs : List (String × String) → Option (List XamlAttribute)
  | [] => some []
  | (k, v) :: rest =>
    match cstring_new k with
    | none => none
    | some kc =>
      match cstring_new v with
      | none => none
      | some vc =>
        match convert_attrs rest with
        | none => none
        | some l => some (XamlAttribute.mk (some kc) (some vc) :: l)

mutual

/-- `convert_node_to_xaml_element` (parser.rs lines 58-107).  The source is
only ever applied to element nodes (`doc.root_element()` and children kept by
the `is_element` filter); the non-element branches mirror roxmltree's
degenerate accessors on such nodes (empty tag name, no namespace, no
attributes, no element children; `Node::text` returns the content of a text
node itself and `None` for comments and processing instructions). -/
def convert_node_to_xaml_element : PNode → Option XamlElement
  | .element name ns attrs txt children =>
    match cstring_new name with
    | none => none
    | some nameC =>
      match opt_cstring ns with
      | none => none
      | some nsC =>
        match convert_attrs attrs with
        | none => none
        | some attrsVec =>
          match convert_children children with
          | none => none
          | some childrenVec =>
            match opt_cstring txt with
            | none => none
            | some textC =>
              some (XamlElement.mk (some nameC) nsC
                (if attrsVec.isEmpty then none else some attrsVec)
                attrs.length
                (if childrenVec.isEmpty then none else some childrenVec)
                (children.filter PNode.is_element).length
                textC)
  | .textNode s =>
    match cstring_new "" with
    | none => none
    | some nameC =>
      match cstring_new s with
      | none => none
      | some textC =>
        some (XamlElement.mk (some nameC) none none 0 none 0 (some textC))
  | .comment _ =>
    match cstring_new "" with
    | none => none
    | some nameC => some (XamlElement.mk (some nameC) none none 0 none 0 none)
  | .procInst _ =>
    match cstring_new "" with
    | none => none
    | some nameC => some (XamlElement.mk (some nameC) none none 0 none 0 none)

/-- The child-building loop (lines 73-76):
`node.children().filter(|n| n.is_element()).map(convert).collect()`,
with the filter fused into the recursion. -/
def convert_children : List PNode → Option (List XamlElement)
  | [] => some []
  | c :: cs =>
    if c.is_element then
      match convert_node_to_xaml_element c with
      | none => none
      | some e =>
        match convert_children cs with
        | none => none
        | some rest => some (e :: rest)
    else
      convert_children cs

end

/-- `parse_xaml` (parser.rs lines 24-43).  `decode` is `CStr::to_str`
(UTF-8 validation) and `parseDoc` is `roxmltree::Document::parse` composed
with `Document::root_element`, both external collaborators.
`result_is_null` models `result.is_null()`.  The value is
`some (status, written)` where `written` is what was stored through the
`result` out-pointer (`none` = left untouched); the overall `none` means the
call never returns (the unwrap abort inside conversion). -/
def parse_xaml (decode : List Nat → Option String)
    (parseDoc : String → Option PNode)
    (xml : Option (List Nat)) (result_is_null : Bool) :
    Option (Int × Option XamlElement) :=
  match xml with
  | none => some (-1, none)
  | some bytes =>
    if result_is_null then some (-1, none)
    else
      match decode bytes with
      | none => some (-2, none)
      | some s =>
        match parseDoc s with
        | none => some (-3, none)
        | some root =>
          match convert_node_to_xaml_element root with
          | none => none
          | some e => some (0, some e)

/-- One deallocation performed by the deallocator: which allocation is
returned to the allocator, in trace order. -/
inductive FreeEvent where
  | name (s : String) : FreeEvent
  | xnamespace (s : String) : FreeEvent
  | text (s : String) : FreeEvent
  | attrKey (s : String) : FreeEvent
  | attrValue (s : String) : FreeEvent
  | attrArray (len : Nat) : FreeEvent
  | childArray (len : Nat) : FreeEvent
  | node : FreeEvent

deriving instance DecidableEq for FreeEvent

/-- The attribute loop of `free_xaml_element_internal` (lines 120-135): for
each pair, free the key then the value, each guarded by a null check. -/
def free_attrs : List XamlAttribute → List FreeEvent
  | [] => []
  | a :: rest =>
    (match a.key with | some s => [FreeEvent.attrKey s] | none => []) ++
    (match a.value with | some s => [FreeEvent.attrValue s] | none => []) ++
    free_attrs rest

mutual

/-- `free_xaml_element_internal` (parser.rs lines 109-148) as a trace of free
events.  Order, from the source: name, namespace and text strings (each
guarded by a null check); then the attribute pairs followed by the attribute
array (the `Box<[XamlAttribute]>` is dropped when the `if` block ends, after
the key/value loop); then the children recursively followed by the child
array; finally the node's own `Box<XamlElement>` is dropped when the function
returns.  The source reconstructs each slice from the stored length field
(`attributes_len`, `children_len`); for every tree the builder produces the
stored length equals the allocation's length (proved below), and a mismatch
is undefined behaviour in the source, so the trace iterates the allocation
itself.  The per-child null check of the source is always taken: the builder
stores only `Box::into_raw` results, which are non-null. -/
def free_xaml_element_internal : XamlElement → List FreeEvent
  | .mk nm ns attrs alen children clen txt =>
    (match nm with | some s => [FreeEvent.name s] | none => []) ++
    (match ns with | some s => [FreeEvent.xnamespace s] | none => []) ++
    (match txt with | some s => [FreeEvent.text s] | none => []) ++
    (match attrs with
     | none => []
     | some l => free_attrs l ++ [FreeEvent.attrArray alen]) ++
    (match children with
     | none => []
     | some cs => free_children_rec cs ++ [FreeEvent.childArray clen]) ++
    [FreeEvent.node]

/-- The child loop of `free_xaml_element_internal` (lines 137-146). -/
def free_children_rec : List XamlElement → List FreeEvent
  | [] => []
  | c :: cs => free_xaml_element_internal c ++ free_children_rec cs

end

/-- `free_xaml_element` (parser.rs lines 47-56): returns `-1` on a null
handle without freeing anything, otherwise runs the internal deallocator
(which ends by dropping the node's own box) and returns `0`. -/
def free_xaml_element : Option XamlElement → Int × List FreeEvent
  | none => (-1, [])
  | some e => (0, free_xaml_element_internal e)

/-- The two traversals of `convert_node_to_xaml_element` made explicit.  The
source builds `attrs` from one call to `node.attributes()` (lines 66-71) but
stores `attributes_len: node.attributes().count()` from a second, independent
call (line 102); likewise the child vector comes from one
`node.children().filter(..)` chain (lines 73-76) and `children_len` from a
second (line 104).  Here the results of the first and second call are
separate arguments (`attrs1`/`attrs2`, `children1`/`children2`); with an
idempotent collaborator iterator the two coincide and this definition
collapses to `convert_node_to_xaml_element` (proved below). -/
def convert_node_two_pass (name : String) (ns : Option String)
    (attrs1 attrs2 : List (String × String)) (txt : Option String)
    (children1 children2 : List PNode) : Option XamlElement :=
  match cstring_new name with
  | none => none
  | some nameC =>
    match opt_cstring ns with
    | none => none
    | some nsC =>
      match convert_attrs attrs1 with
      | none => none
      | some attrsVec =>
        match convert_children children1 with
        | none => none
        | some childrenVec =>
          match opt_cstring txt with
          | none => none
          | some textC =>
            some (XamlElement.mk (some nameC) nsC
              (if attrsVec.isEmpty then none else some attrsVec)
              attrs2.length
              (if childrenVec.isEmpty then none else some childrenVec)
              (children2.filter PNode.is_element).length
              textC)

/-- With an idempotent iterator (both calls yield the same sequences), the
explicit two-pass form is exactly the source conversion. -/
theorem convert_two_pass_agrees (name : String) (ns : Option String)
    (attrs : List (String × String)) (txt : Option String)
    (children : List PNode) :
    convert_node_two_pass name ns attrs attrs txt children children =
      convert_node_to_xaml_element (PNode.element name ns attrs txt children) := by
  simp only [convert_node_two_pass, convert_node_to_xaml_element]

/-- The attribute array the builder allocates has one entry per source
attribute. -/
theorem convert_attrs_length : ∀ ats v, convert_attrs ats = some v →
    v.length = ats.length := by
  intro ats
  induction ats with
  | nil => intro v h; simp only [convert_attrs] at h; cases h; rfl
  | cons kv rest ih =>
    intro v h
    obtain ⟨k, vv⟩ := kv
    simp only [convert_attrs] at h
    cases hk : cstring_new k with
    | none => rw [hk] at h; cases h
    | some kc =>
      rw [hk] at h
      cases hv : cstring_new vv with
      | none => rw [hv] at h; cases h
      | some vc =>
        rw [hv] at h
        cases hr : convert_attrs rest with
        | none => rw [hr] at h; cases h
        | some l =>
          rw [hr] at h
          cases h
          simp [ih l hr]

/-- The child array the builder allocates has one entry per element child of
the source node. -/
theorem convert_children_length : ∀ cs l, convert_children cs = some l →
    l.length = (cs.filter PNode.is_element).length := by
  intro cs
  induction cs with
  | nil => intro l h; simp only [convert_children] at h; cases h; rfl
  | cons c rest ih =>
    intro l h
    simp only [convert_children] at h
    by_cases hc : c.is_element
    · rw [if_pos hc] at h
      cases he : convert_node_to_xaml_element c with
      | none => rw [he] at h; cases h
      | some e =>
        rw [he] at h
        cases hr : convert_children rest with
        | none => rw [hr] at h; cases h
        | some restv =>
          rw [hr] at h
          cases h
          simp [List.filter_cons, hc, ih restv hr]
    · rw [if_neg hc] at h
      have := ih l h
      simp [List.filter_cons, hc, this]

mutual

/-- The null+zero pairing at one node and, recursively, in every descendant:
an array pointer is null exactly when the stored length is zero, and a
non-null array pointer never points at a zero-length allocation. -/
def null_zero_consistent : XamlElement → Bool
  | .mk _ _ attrs alen children clen _ =>
    (attrs.isNone == (alen == 0)) &&
    (match attrs with | some l => !l.isEmpty | none => true) &&
    (children.isNone == (clen == 0)) &&
    (match children with
     | some cs => !cs.isEmpty && null_zero_all cs
     | none => true)

def null_zero_all : List XamlElement → Bool
  | [] => true
  | c :: cs => null_zero_consistent c && null_zero_all cs

end

/-- A node assembled the way the builder assembles one — empty array mapped
to a null pointer, length fields matching the built vectors — satisfies the
null+zero pairing. -/
theorem mk_null_zero (attrsVec : List XamlAttribute)
    (childrenVec : List XamlElement) (alen clen : Nat)
    (h1 : attrsVec.length = alen) (h2 : childrenVec.length = clen)
    (h3 : null_zero_all childrenVec = true)
    (nm ns txt : Option String) :
    null_zero_consistent (XamlElement.mk nm ns
      (if attrsVec.isEmpty then none else some attrsVec) alen
      (if childrenVec.isEmpty then none else some childrenVec) clen txt)
      = true := by
  subst h1 h2
  cases attrsVec <;> cases childrenVec <;>
    simp_all [null_zero_consistent, List.isEmpty]

mutual

/-- Every tree the builder returns satisfies the null+zero pairing at every
level. -/
theorem convert_null_zero : ∀ n e, convert_node_to_xaml_element n = some e →
    null_zero_consistent e = true
  | PNode.element name ns attrs txt children, e, h => by
    simp only [convert_node_to_xaml_element] at h
    cases h1 : cstring_new name with
    | none => rw [h1] at h; cases h
    | some nameC =>
      rw [h1] at h
      cases h2 : opt_cstring ns with
      | none => rw [h2] at h; cases h
      | some nsC =>
        rw [h2] at h
        cases h3 : convert_attrs attrs with
        | none => rw [h3] at h; cases h
        | some attrsVec =>
          rw [h3] at h
          cases h4 : convert_children children with
          | none => rw [h4] at h; cases h
          | some childrenVec =>
            rw [h4] at h
            cases h5 : opt_cstring txt with
            | none => rw [h5] at h; cases h
            | some textC =>
              rw [h5] at h
              cases h
              exact mk_null_zero attrsVec childrenVec _ _
                (convert_attrs_length attrs attrsVec h3)
                (convert_children_length children childrenVec h4)
                (convert_children_null_zero children childrenVec h4)
                _ _ _
  | PNode.textNode s, e, h => by
    simp only [convert_node_to_xaml_element] at h
    rw [show cstring_new "" = some "" from rfl] at h
    cases h6 : cstring_new s with
    | none => rw [h6] at h; cases h
    | some textC =>
      rw [h6] at h
      cases h
      rfl
  | PNode.comment s, e, h => by
    simp only [convert_node_to_xaml_element] at h
    rw [show cstring_new "" = some "" from rfl] at h
    cases h
    rfl
  | PNode.procInst s, e, h => by
    simp only [convert_node_to_xaml_element] at h
    rw [show cstring_new "" = some "" from rfl] at h
    cases h
    rfl

/-- Every child vector the builder returns consists of trees satisfying the
null+zero pairing. -/
theorem convert_children_null_zero : ∀ cs l, convert_children cs = some l →
    null_zero_all l = true
  | [], l, h => by
    simp only [convert_children] at h
    cases h
    rfl
  | c :: cs, l, h => by
    simp only [convert_children] at h
    by_cases hc : c.is_element
    · rw [if_pos hc] at h
      cases he : convert_node_to_xaml_element c with
      | none => rw [he] at h; cases h
      | some e =>
        rw [he] at h
        cases hr : convert_children cs with
        | none => rw [hr] at h; cases h
        | some restv =>
          rw [hr] at h
          cases h
          simp only [null_zero_all, Bool.and_eq_true]
          exact ⟨convert_null_zero c e he, convert_children_null_zero cs restv hr⟩
    · rw [if_neg hc] at h
      exact convert_children_null_zero cs l h

end

/-- One attribute pair agrees in key and value. -/
def attr_identical (a b : XamlAttribute) : Bool :=
  a.key == b.key && a.value == b.value

/-- Two attribute arrays agree entry by entry, in order, including
null-versus-allocated status. -/
def attrs_identical : Option (List XamlAttribute) →
    Option (List XamlAttribute) → Bool
  | none, none => true
  | some l1, some l2 =>
    l1.length == l2.length && (l1.zip l2).all fun p => attr_identical p.1 p.2
  | _, _ => false

mutual

/-- Structural identity of two built trees: same name, same namespace, same
attributes in the same order, same children in the same order (recursively),
and same text. -/
def struct_identical : XamlElement → XamlElement → Bool
  | .mk n1 ns1 a1 _ c1 _ t1, .mk n2 ns2 a2 _ c2 _ t2 =>
    n1 == n2 && ns1 == ns2 && attrs_identical a1 a2 &&
      children_identical c1 c2 && t1 == t2

def children_identical : Option (List XamlElement) →
    Option (List XamlElement) → Bool
  | none, none => true
  | some l1, some l2 => children_list_identical l1 l2
  | _, _ => false

def children_list_identical : List XamlElement → List XamlElement → Bool
  | [], [] => true
  | c :: cs, d :: ds => struct_identical c d && children_list_identical cs ds
  | _, _ => false

end

/-- Structural identity is reflexive on attribute arrays. -/
theorem attrs_identical_refl : ∀ a, attrs_identical a a = true := by
  intro a
  cases a with
  | none => rfl
  | some l =>
    simp only [attrs_identical, Bool.and_eq_true, beq_self_eq_true, true_and]
    rw [List.all_eq_true]
    intro p hp
    have : p.1 = p.2 := by
      induction l with
      | nil => cases hp
      | cons x xs ih =>
        rw [List.zip_cons_cons, List.mem_cons] at hp
        cases hp with
        | inl h => rw [h]
        | inr h => exact ih h
    simp [attr_identical, this]

mutual

/-- Structural identity is reflexive. -/
theorem struct_identical_refl : ∀ e, struct_identical e e = true
  | .mk n ns a al c cl t => by
    simp only [struct_identical, Bool.and_eq_true, beq_self_eq_true,
      true_and, and_true]
    exact ⟨attrs_identical_refl a, children_identical_refl c⟩

theorem children_identical_refl : ∀ c, children_identical c c = true
  | none => rfl
  | some l => children_list_identical_refl l

theorem children_list_identical_refl :
    ∀ l, children_list_identical l l = true
  | [] => rfl
  | c :: cs => by
    simp only [children_list_identical, Bool.and_eq_true]
    exact ⟨struct_identical_refl c, children_list_identical_refl cs⟩

end

/-- Deallocations for one attribute pair as the amended contract words them:
the pair's key, then its value (a null pointer contributes nothing). -/
def attr_pair_frees (a : XamlAttribute) : List FreeEvent :=
  a.key.toList.map FreeEvent.attrKey ++ a.value.toList.map FreeEvent.attrValue

mutual

/-- The release order stated by the amended contract: the element's own name,
namespace and text strings first; then each attribute pair's key and value
followed by the attribute array; then each child subtree recursively
(depth-first, post-order) followed by the child array; and finally the node
itself. -/
def free_order_spec : XamlElement → List FreeEvent
  | .mk nm ns attrs alen children clen txt =>
    nm.toList.map FreeEvent.name ++
    ns.toList.map FreeEvent.xnamespace ++
    txt.toList.map FreeEvent.text ++
    (match attrs with
     | none => []
     | some l => l.flatMap attr_pair_frees ++ [FreeEvent.attrArray alen]) ++
    (match children with
     | none => []
     | some cs => free_order_spec_list cs ++ [FreeEvent.childArray clen]) ++
    [FreeEvent.node]

/-- Subtree release order for a child array, in array order. -/
def free_order_spec_list : List XamlElement → List FreeEvent
  | [] => []
  | c :: cs => free_order_spec c ++ free_order_spec_list cs

end

/-- The attribute loop of the deallocator frees exactly each pair's key then
value, in array order. -/
theorem free_attrs_eq_flatMap : ∀ l, free_attrs l = l.flatMap attr_pair_frees := by
  intro l
  induction l with
  | nil => rfl
  | cons a rest ih =>
    obtain ⟨k, v⟩ := a
    cases k <;> cases v <;>
      simp [free_attrs, attr_pair_frees, List.flatMap_cons, ih]

mutual

/-- The deallocator's actual trace coincides, on every tree, with the order
stated by the amended contract. -/
theorem free_internal_eq_spec : ∀ e,
    free_xaml_element_internal e = free_order_spec e
  | .mk nm ns attrs alen none clen txt => by
    simp only [free_xaml_element_internal, free_order_spec,
      free_attrs_eq_flatMap]
    cases nm <;> cases ns <;> cases txt <;> cases attrs <;> simp
  | .mk nm ns attrs alen (some cs) clen txt => by
    have h := free_children_eq_spec cs
    simp only [free_xaml_element_internal, free_order_spec,
      free_attrs_eq_flatMap, h]
    cases nm <;> cases ns <;> cases txt <;> cases attrs <;> simp

/-- Child-array traces coincide likewise. -/
theorem free_children_eq_spec : ∀ cs,
    free_children_rec cs = free_order_spec_list cs
  | [] => rfl
  | c :: cs => by
    have h1 := free_internal_eq_spec c
    have h2 := free_children_eq_spec cs
    simp only [free_children_rec, free_order_spec_list, h1, h2]

end

/-- Spec-side description of child construction: convert each node of a
(pre-filtered) list, in order, failing if any conversion fails. -/
def map_convert : List PNode → Option (List XamlElement)
  | [] => some []
  | c :: cs =>
    match convert_node_to_xaml_element c, map_convert cs with
    | some e, some l => some (e :: l)
    | _, _ => none

/-- The builder's fused filter-and-convert loop equals filtering the child
list to element nodes first and then converting each one, in order. -/
theorem convert_children_eq_map_filter : ∀ cs,
    convert_children cs = map_convert (cs.filter PNode.is_element) := by
  intro cs
  induction cs with
  | nil => rfl
  | cons c rest ih =>
    simp only [convert_children, List.filter_cons]
    by_cases hc : c.is_element
    · rw [if_pos hc, if_pos hc]
      simp only [map_convert, ih]
      cases convert_node_to_xaml_element c <;>
        cases map_convert (List.filter PNode.is_element rest) <;> rfl
    · rw [if_neg hc, if_neg hc]
      exact ih

/-- C1: the claim says a string field with an embedded NUL makes the build
fail with the distinct status `-4` before allocating, rather than aborting
the process.  The source instead calls `CString::new(..).unwrap()`, which
aborts: on a parsed node whose attribute value embeds a NUL, the conversion
aborts (`none`) and the entry point never returns any status — in particular
it never returns `-4`. -/
theorem claim_C1_embedded_nul_aborts :
    convert_node_to_xaml_element
      (PNode.element "Root" none [("key", "v\x00")] none []) = none ∧
    parse_xaml (fun _ => some "d")
      (fun _ => some (PNode.element "Root" none [("key", "v\x00")] none []))
      (some [60]) false = none :=
  ⟨rfl, rfl⟩

/-- C2: the claim says the attribute and filtered-child counts are recorded
once, from the same traversal that built the arrays.  The source instead
stores `attributes_len` and `children_len` from a second, independent call to
the collaborator's iterator.  With a non-idempotent iterator whose second
pass comes back empty, the builder returns a node whose attribute array
holds one entry while the stored `attributes_len` is `0`, and likewise for
children — the skew the single-traversal rule exists to prevent. -/
theorem claim_C2_second_pass_count_skew :
    (convert_node_two_pass "Root" none [("k", "v")] [] none [] []).map
        (fun e => (e.attributes.map List.length, e.attributes_len)) =
      some (some 1, 0) ∧
    (convert_node_two_pass "Root" none [] [] none
        [PNode.element "Child" none [] none []] []).map
        (fun e => (e.children.map List.length, e.children_len)) =
      some (some 1, 0) :=
  ⟨rfl, rfl⟩

/-- C3 counterexample: the claim says release of a null/absent handle
returns the success code `0` and that `0` is release's only outcome; the
source returns `-1` on a null handle. -/
theorem claim_C3_counterexample :
    (free_xaml_element none).1 = -1 ∧ (free_xaml_element none).1 ≠ 0 :=
  ⟨rfl, by decide⟩

/-- C3 amended: release of a null/absent handle is a defined no-op (no
deallocation is performed) but returns `-1`, not the success code `0`; a
release of a present handle returns `0`; `-1` and `0` are the only
outcomes. -/
theorem claim_C3_amended_release_codes :
    ∀ h : Option XamlElement,
      (free_xaml_element h).1 = (if h.isNone then -1 else 0) ∧
      (free_xaml_element none).2 = [] := by
  intro h
  exact ⟨by cases h <;> rfl, rfl⟩

/-- C4 counterexample: the claim says release frees the attribute pairs and
array first and the element's own strings only after the children.  On an
element with one attribute the source's first free is the element's `name`
string, so the actual trace differs from the claimed order. -/
theorem claim_C4_counterexample :
    free_xaml_element_internal (XamlElement.mk (some "n") none
        (some [XamlAttribute.mk (some "k") (some "v")]) 1 none 0 none) =
      [FreeEvent.name "n", FreeEvent.attrKey "k", FreeEvent.attrValue "v",
        FreeEvent.attrArray 1, FreeEvent.node] ∧
    ([FreeEvent.name "n", FreeEvent.attrKey "k", FreeEvent.attrValue "v",
        FreeEvent.attrArray 1, FreeEvent.node] : List FreeEvent) ≠
      [FreeEvent.attrKey "k", FreeEvent.attrValue "v", FreeEvent.attrArray 1,
        FreeEvent.name "n", FreeEvent.node] :=
  ⟨rfl, by decide⟩

/-- C4 amended: for every tree, release frees the element's own name,
namespace and text strings first; then each attribute pair's key and value
followed by the attribute array; then each child recursively (depth-first,
post-order, every child's allocations released before the parent's node)
followed by the child array; and finally the node itself. -/
theorem claim_C4_amended_free_order :
    ∀ e, free_xaml_element_internal e = free_order_spec e :=
  free_internal_eq_spec

/-- C5: every element node of every tree the builder returns satisfies the
null+zero pairing at every level independently: the attribute array pointer
is null exactly when the stored attribute length is zero and is never a
non-null pointer to an empty allocation, and likewise for children. -/
theorem claim_C5_null_zero_pairing (n : PNode) (e : XamlElement)
    (h : convert_node_to_xaml_element n = some e) :
    null_zero_consistent e = true :=
  convert_null_zero n e h

/-- C5 witness: the builder run on a concrete attribute-free, child-free
element yields a tree satisfying the pairing. -/
theorem claim_C5_witness :
    null_zero_consistent
      (XamlElement.mk (some "R") none none 0 none 0 none) = true :=
  claim_C5_null_zero_pairing (PNode.element "R" none [] none []) _ rfl

/-- C6: whenever `parse_xaml` returns a non-zero status the out-pointer is
left untouched, and whenever it returns `0` a root tree was written; the
quantification over the collaborators covers every decode and parse
outcome. -/
theorem claim_C6_failure_output_untouched
    (decode : List Nat → Option String) (parseDoc : String → Option PNode)
    (xml : Option (List Nat)) (rnull : Bool) (code : Int)
    (written : Option XamlElement)
    (h : parse_xaml decode parseDoc xml rnull = some (code, written)) :
    (code ≠ 0 → written = none) ∧ (code = 0 → ∃ e, written = some e) := by
  cases xml with
  | none =>
    simp only [parse_xaml, Option.some.injEq, Prod.mk.injEq] at h
    obtain ⟨hc, hw⟩ := h
    subst hc
    subst hw
    exact ⟨fun _ => rfl, fun h0 => absurd h0 (by decide)⟩
  | some bytes =>
    cases rnull with
    | true =>
      simp only [parse_xaml, if_true, Option.some.injEq, Prod.mk.injEq] at h
      obtain ⟨hc, hw⟩ := h
      subst hc
      subst hw
      exact ⟨fun _ => rfl, fun h0 => absurd h0 (by decide)⟩
    | false =>
      simp only [parse_xaml, Bool.false_eq_true, if_false] at h
      cases hd : decode bytes with
      | none =>
        simp only [hd, Option.some.injEq, Prod.mk.injEq] at h
        obtain ⟨hc, hw⟩ := h
        subst hc
        subst hw
        exact ⟨fun _ => rfl, fun h0 => absurd h0 (by decide)⟩
      | some s =>
        simp only [hd] at h
        cases hp : parseDoc s with
        | none =>
          simp only [hp, Option.some.injEq, Prod.mk.injEq] at h
          obtain ⟨hc, hw⟩ := h
          subst hc
          subst hw
          exact ⟨fun _ => rfl, fun h0 => absurd h0 (by decide)⟩
        | some root =>
          simp only [hp] at h
          cases hcv : convert_node_to_xaml_element root with
          | none =>
            simp only [hcv] at h
            exact Option.noConfusion h
          | some e =>
            simp only [hcv, Option.some.injEq, Prod.mk.injEq] at h
            obtain ⟨hc, hw⟩ := h
            subst hc
            subst hw
            exact ⟨fun h0 => absurd rfl h0, fun _ => ⟨e, rfl⟩⟩

/-- C6 witness: with a collaborator that rejects the markup, the call
returns `-3` and the out-pointer stays untouched. -/
theorem claim_C6_witness :
    (((-3 : Int) ≠ 0 → (none : Option XamlElement) = none) ∧
      ((-3 : Int) = 0 → ∃ e : XamlElement,
        (none : Option XamlElement) = some e)) :=
  claim_C6_failure_output_untouched (fun _ => some "x") (fun _ => none)
    (some [60]) false (-3) none rfl

/-- C7: the children sequence of a built element is exactly the conversion
of that node's element children, in document order; text nodes, comments and
processing instructions are excluded both from the sequence and from the
stored `children_len`, which counts only element children. -/
theorem claim_C7_children_filter (name : String) (ns : Option String)
    (attrs : List (String × String)) (txt : Option String)
    (cs : List PNode) (e : XamlElement)
    (h : convert_node_to_xaml_element (PNode.element name ns attrs txt cs)
      = some e) :
    ∃ l, map_convert (cs.filter PNode.is_element) = some l ∧
      e.children_seq = l ∧
      e.children_len = (cs.filter PNode.is_element).length := by
  simp only [convert_node_to_xaml_element] at h
  cases h1 : cstring_new name with
  | none => rw [h1] at h; cases h
  | some nameC =>
    rw [h1] at h
    cases h2 : opt_cstring ns with
    | none => rw [h2] at h; cases h
    | some nsC =>
      rw [h2] at h
      cases h3 : convert_attrs attrs with
      | none => rw [h3] at h; cases h
      | some attrsVec =>
        rw [h3] at h
        cases h4 : convert_children cs with
        | none => rw [h4] at h; cases h
        | some childrenVec =>
          rw [h4] at h
          cases h5 : opt_cstring txt with
          | none => rw [h5] at h; cases h
          | some textC =>
            rw [h5] at h
            cases h
            refine ⟨childrenVec, ?_, ?_, rfl⟩
            · rw [← convert_children_eq_map_filter]
              exact h4
            · by_cases hemp : childrenVec.isEmpty
              · have hnil : childrenVec = [] := by
                  cases childrenVec with
                  | nil => rfl
                  | cons a l => cases hemp
                simp [XamlElement.children_seq, XamlElement.children,
                  hemp, hnil]
              · simp [XamlElement.children_seq, XamlElement.children, hemp]

/-- C7 witness: a node with a text child, an element child and a comment
child yields a children sequence containing exactly the converted element
child and a `children_len` of 1. -/
theorem claim_C7_witness :
    ∃ l, map_convert
        (([PNode.textNode "hi", PNode.element "Child" none [] none [],
          PNode.comment "c"]).filter PNode.is_element) = some l ∧
      XamlElement.children_seq
        (XamlElement.mk (some "Root") none none 0
          (some [XamlElement.mk (some "Child") none none 0 none 0 none]) 1
          none) = l ∧
      XamlElement.children_len
        (XamlElement.mk (some "Root") none none 0
          (some [XamlElement.mk (some "Child") none none 0 none 0 none]) 1
          none) =
        (([PNode.textNode "hi", PNode.element "Child" none [] none [],
          PNode.comment "c"]).filter PNode.is_element).length :=
  claim_C7_children_filter "Root" none [] none
    [PNode.textNode "hi", PNode.element "Child" none [] none [],
      PNode.comment "c"] _ rfl

/-- C8: a null input pointer yields `InvalidArgument` (`-1`) with the
out-pointer untouched, for every behaviour of the decoding and parsing
collaborators — in particular without invoking them. -/
theorem claim_C8_null_input_invalid_argument :
    ∀ (decode : List Nat → Option String)
      (parseDoc : String → Option PNode) (rnull : Bool),
      parse_xaml decode parseDoc none rnull = some (-1, none) :=
  fun _ _ _ => rfl

/-- C9: two sequential builds of the same input that both succeed produce
structurally identical trees — same names, namespaces, attribute order,
child order and text at every corresponding node. -/
theorem claim_C9_build_deterministic
    (decode : List Nat → Option String) (parseDoc : String → Option PNode)
    (xml : Option (List Nat)) (rnull : Bool) (t1 t2 : XamlElement)
    (h1 : parse_xaml decode parseDoc xml rnull = some (0, some t1))
    (h2 : parse_xaml decode parseDoc xml rnull = some (0, some t2)) :
    struct_identical t1 t2 = true := by
  rw [h1] at h2
  injection h2 with h3
  injection h3 with h4 h5
  injection h5 with h6
  rw [h6]
  exact struct_identical_refl t2

/-- C9 witness: two runs on a concrete one-element document produce
structurally identical trees. -/
theorem claim_C9_witness :
    struct_identical (XamlElement.mk (some "R") none none 0 none 0 none)
      (XamlElement.mk (some "R") none none 0 none 0 none) = true :=
  claim_C9_build_deterministic (fun _ => some "x")
    (fun _ => some (PNode.element "R" none [] none []))
    (some [60]) false _ _ rfl rfl

/-- C10: a null out-pointer also yields `InvalidArgument` (`-1`), for every
present input and every behaviour of the collaborators — the parsing
collaborator is never invoked and nothing is written. -/
theorem claim_C10_null_result_invalid_argument :
    ∀ (decode : List Nat → Option String)
      (parseDoc : String → Option PNode) (bytes : List Nat),
      parse_xaml decode parseDoc (some bytes) true = some (-1, none) :=
  fun _ _ _ => rfl
